import Mathlib

/-!
Shallow embedding of the application status lifecycle of the school-admissions
server (`src/server/src/handlers/application_status.ts`,
`src/server/src/handlers/applications.ts`, `src/server/src/db/schema.ts`,
`src/server/src/schema.ts`).

The database is modelled as an explicit state: the `applications` table, the
`application_status_history` table (as append lists), and a logical clock `now`
standing for the wall clock read by `new Date()` / `defaultNow()`.  Each
handler is a function from the state (plus its inputs) to the resulting state
together with an `Except` value mirroring the promise resolution/rejection.
Serial primary keys are database-generated and never read by the handlers, so
they are omitted from the row types.
-/

/-- The `application_status` enum of `src/server/src/schema.ts` (zod) and
`src/server/src/db/schema.ts` (pgEnum): five wire values. -/
inductive ApplicationStatus where
  | INITIAL_REGISTRATION
  | DOCUMENT_UPLOAD
  | SELECTION
  | ANNOUNCEMENT
  | RE_REGISTRATION
deriving DecidableEq, Repr, Inhabited

/-- `applicationStatusSchema.parse` on an untyped string: succeeds exactly on
the five enum member strings, otherwise the zod parse throws. -/
def applicationStatusParse (s : String) : Option ApplicationStatus :=
  if s = "INITIAL_REGISTRATION" then some ApplicationStatus.INITIAL_REGISTRATION
  else if s = "DOCUMENT_UPLOAD" then some ApplicationStatus.DOCUMENT_UPLOAD
  else if s = "SELECTION" then some ApplicationStatus.SELECTION
  else if s = "ANNOUNCEMENT" then some ApplicationStatus.ANNOUNCEMENT
  else if s = "RE_REGISTRATION" then some ApplicationStatus.RE_REGISTRATION
  else none

/-- One row of the `applications` table. -/
structure Application where
  id : Nat
  applicant_id : Nat
  application_number : String
  status : ApplicationStatus
  submitted_at : Option Nat
  created_at : Nat
  updated_at : Nat
deriving DecidableEq, Repr, Inhabited

/-- One row of the `application_status_history` table.  `previous_status` and
`notes` are nullable columns. -/
structure ApplicationStatusHistory where
  application_id : Nat
  previous_status : Option ApplicationStatus
  new_status : ApplicationStatus
  changed_by_user_id : Nat
  notes : Option String
  created_at : Nat
deriving DecidableEq, Repr, Inhabited

/-- The database state visible to these handlers, plus the clock. -/
structure DB where
  applications : List Application
  history : List ApplicationStatusHistory
  now : Nat
deriving DecidableEq, Repr, Inhabited

/-- Rejection values: a zod validation failure (from
`applicationStatusSchema.parse`) or a thrown `new Error(msg)`. -/
inductive HandlerError where
  | validation (value : String)
  | err (msg : String)
deriving DecidableEq, Repr

/-- `UpdateApplicationStatusInput` of `src/server/src/schema.ts`:
`{ application_id, new_status, notes?: string | null }`.  The JS distinction
between an absent and a `null` notes field is irrelevant to the handlers
(both are falsy), so both are `none`. -/
structure UpdateApplicationStatusInput where
  application_id : Nat
  new_status : ApplicationStatus
  notes : Option String
deriving DecidableEq, Repr

/-- The JS expression `notes || null`: `undefined`, `null` and the empty
string (all falsy) become `null`; any non-empty string is kept. -/
def notesOrNull (notes : Option String) : Option String :=
  match notes with
  | none => none
  | some s => if s = "" then none else some s

/-- `updateApplicationStatus` of `src/server/src/handlers/application_status.ts`
(lines 6-49): select the application by id, throw not-found on the empty
result, update `status` and `updated_at`, insert one history row, return the
updated row. -/
def updateApplicationStatus (db : DB) (input : UpdateApplicationStatusInput)
    (changedByUserId : Nat) : DB × Except HandlerError Application :=
  let currentApplication :=
    db.applications.filter (fun a => a.id == input.application_id)
  match currentApplication with
  | [] =>
    (db, Except.error (HandlerError.err
      ("Application with ID " ++ toString input.application_id ++ " not found")))
  | app :: _ =>
    let previousStatus := app.status
    let db1 : DB :=
      { db with applications := db.applications.map (fun a =>
          if a.id == input.application_id then
            { a with status := input.new_status, updated_at := db.now }
          else a) }
    let updatedApplications :=
      db1.applications.filter (fun a => a.id == input.application_id)
    let row : ApplicationStatusHistory :=
      { application_id := input.application_id
        previous_status := some previousStatus
        new_status := input.new_status
        changed_by_user_id := changedByUserId
        notes := notesOrNull input.notes
        created_at := db.now }
    let db2 : DB := { db1 with history := db1.history ++ [row], now := db.now + 1 }
    (db2, Except.ok (updatedApplications.headD default))

/-- `getApplicationStatusHistory` (lines 51-65): select the history rows of
the application ordered by `created_at`; reads mutate nothing. -/
def getApplicationStatusHistory (db : DB) (applicationId : Nat) :
    DB × Except HandlerError (List ApplicationStatusHistory) :=
  let history :=
    (db.history.filter (fun h => h.application_id == applicationId)).mergeSort
      (fun h1 h2 => h1.created_at ≤ h2.created_at)
  (db, Except.ok history)

/-- `bulkUpdateApplicationStatus` (lines 67-123): empty-list early return,
zod validation of the status string, select of the targeted rows, count
check, bulk update, bulk history insert. -/
def bulkUpdateApplicationStatus (db : DB) (applicationIds : List Nat)
    (newStatus : String) (changedByUserId : Nat) (notes : Option String) :
    DB × Except HandlerError (List Application) :=
  if applicationIds.length = 0 then
    (db, Except.ok [])
  else
    match applicationStatusParse newStatus with
    | none => (db, Except.error (HandlerError.validation newStatus))
    | some validatedStatus =>
      let currentApplications :=
        db.applications.filter (fun a => applicationIds.contains a.id)
      if currentApplications.length ≠ applicationIds.length then
        (db, Except.error (HandlerError.err
          ("Some applications were not found. Expected " ++
            toString applicationIds.length ++ ", found " ++
            toString currentApplications.length)))
      else
        let db1 : DB :=
          { db with applications := db.applications.map (fun a =>
              if applicationIds.contains a.id then
                { a with status := validatedStatus, updated_at := db.now }
              else a) }
        let updatedApplications :=
          db1.applications.filter (fun a => applicationIds.contains a.id)
        let historyRecords := currentApplications.map (fun app =>
          ({ application_id := app.id
             previous_status := some app.status
             new_status := validatedStatus
             changed_by_user_id := changedByUserId
             notes := notesOrNull notes
             created_at := db.now } : ApplicationStatusHistory))
        let db2 : DB :=
          { db1 with history := db1.history ++ historyRecords, now := db.now + 1 }
        (db2, Except.ok updatedApplications)

/-- `submitApplication` of `src/server/src/handlers/applications.ts`
(lines 168-196): existence check, then a single update setting
`status = DOCUMENT_UPLOAD`, `submitted_at` and `updated_at`.  No history row
is inserted. -/
def submitApplication (db : DB) (applicationId : Nat) :
    DB × Except HandlerError Application :=
  let existingApplication :=
    db.applications.filter (fun a => a.id == applicationId)
  match existingApplication with
  | [] => (db, Except.error (HandlerError.err "Application not found"))
  | _ :: _ =>
    let db1 : DB :=
      { db with
        applications := db.applications.map (fun a =>
          if a.id == applicationId then
            { a with status := ApplicationStatus.DOCUMENT_UPLOAD,
                     submitted_at := some db.now, updated_at := db.now }
          else a),
        now := db.now + 1 }
    let result := db1.applications.filter (fun a => a.id == applicationId)
    (db1, Except.ok (result.headD default))

/-- Which storage statement of `updateApplicationStatus` a fault hits:
`none` is the fault-free run; `onUpdate` makes the `db.update` statement
throw; `onInsert` makes the `db.insert` statement throw.  The source wraps
the three statements in a single try/catch that only logs and rethrows —
there is no transaction — so a statement that already executed keeps its
effect when a later one throws. -/
inductive DbFault where
  | fault_free
  | onUpdate
  | onInsert
deriving DecidableEq, Repr

/-- `updateApplicationStatus` under an injected storage fault.  Statement by
statement as the source: the select, then the update (effects kept if it
succeeds), then the insert; a throwing statement has no effect of its own but
undoes nothing that came before. -/
def updateApplicationStatusFault (db : DB) (input : UpdateApplicationStatusInput)
    (changedByUserId : Nat) (fault : DbFault) : DB × Except HandlerError Application :=
  let currentApplication :=
    db.applications.filter (fun a => a.id == input.application_id)
  match currentApplication with
  | [] =>
    (db, Except.error (HandlerError.err
      ("Application with ID " ++ toString input.application_id ++ " not found")))
  | app :: _ =>
    let previousStatus := app.status
    if fault = DbFault.onUpdate then
      (db, Except.error (HandlerError.err "update failed"))
    else
      let db1 : DB :=
        { db with applications := db.applications.map (fun a =>
            if a.id == input.application_id then
              { a with status := input.new_status, updated_at := db.now }
            else a) }
      let updatedApplications :=
        db1.applications.filter (fun a => a.id == input.application_id)
      if fault = DbFault.onInsert then
        ({ db1 with now := db.now + 1 }, Except.error (HandlerError.err "insert failed"))
      else
        let row : ApplicationStatusHistory :=
          { application_id := input.application_id
            previous_status := some previousStatus
            new_status := input.new_status
            changed_by_user_id := changedByUserId
            notes := notesOrNull input.notes
            created_at := db.now }
        let db2 : DB := { db1 with history := db1.history ++ [row], now := db.now + 1 }
        (db2, Except.ok (updatedApplications.headD default))

/-- A status-transition operation of the engine: one single update or one
bulk update, with its inputs. -/
inductive TransitionOp where
  | single (input : UpdateApplicationStatusInput) (changedByUserId : Nat)
  | bulk (applicationIds : List Nat) (newStatus : String)
      (changedByUserId : Nat) (notes : Option String)
deriving DecidableEq, Repr

/-- The database state after one transition operation (a failed call leaves
the state it returns, which for these handlers is the unchanged input state). -/
def TransitionOp.apply (db : DB) : TransitionOp → DB
  | TransitionOp.single input uid => (updateApplicationStatus db input uid).1
  | TransitionOp.bulk ids s uid notes => (bulkUpdateApplicationStatus db ids s uid notes).1

/-- The database state after a sequence of transition operations. -/
def runTransitions (db : DB) (ops : List TransitionOp) : DB :=
  ops.foldl TransitionOp.apply db

/-- The history rows of one application, in table (insertion) order. -/
def historyFor (db : DB) (applicationId : Nat) : List ApplicationStatusHistory :=
  db.history.filter (fun h => h.application_id == applicationId)

/-- The replay chain of the spec: consecutive rows link `new_status` to the
next row's `previous_status`, and the last row's `new_status` is the
application's current status.  Trivial for an empty history. -/
def chainOk : List ApplicationStatusHistory → ApplicationStatus → Bool
  | [], _ => true
  | [r], current => r.new_status == current
  | r :: r' :: rest, current =>
    (r'.previous_status == some r.new_status) && chainOk (r' :: rest) current

/-- Well-formedness of a database state: application ids are unique (serial
primary key), every stored timestamp is in the past of the clock, and the
history table is in `created_at` order (rows are only ever appended at the
current time). -/
def DB.wf (db : DB) : Prop :=
  (db.applications.map (fun a => a.id)).Nodup ∧
  (∀ a ∈ db.applications, a.updated_at < db.now) ∧
  (∀ h ∈ db.history, h.created_at < db.now) ∧
  db.history.Pairwise (fun h1 h2 => h1.created_at ≤ h2.created_at)

instance (db : DB) : Decidable db.wf := by
  unfold DB.wf
  infer_instance

/-- The chain invariant: every application's history replays to its current
status. -/
def chainInv (db : DB) : Prop :=
  ∀ a ∈ db.applications, chainOk (historyFor db a.id) a.status = true

instance (db : DB) : Decidable (chainInv db) := by
  unfold chainInv
  infer_instance

/-- Fixture: an application in the initial stage (scenario values of spec §8). -/
def exApp1 : Application :=
  { id := 1, applicant_id := 10, application_number := "APP-10-100",
    status := ApplicationStatus.INITIAL_REGISTRATION, submitted_at := none,
    created_at := 100, updated_at := 100 }

/-- Fixture: a second application in a different stage. -/
def exApp2 : Application :=
  { id := 2, applicant_id := 11, application_number := "APP-11-101",
    status := ApplicationStatus.DOCUMENT_UPLOAD, submitted_at := none,
    created_at := 101, updated_at := 101 }

/-- Fixture: a database holding the two applications and no history. -/
def exDB : DB := { applications := [exApp1, exApp2], history := [], now := 200 }

/- ### Helper lemmas -/

theorem filter_map_of_key {α β : Type} (l : List α) (f : α → β) (p : α → Bool) (q : β → Bool)
    (hpq : ∀ a, q (f a) = p a) : (l.map f).filter q = (l.filter p).map f := by
  induction l with
  | nil => rfl
  | cons a t ih =>
    simp only [List.map_cons, List.filter_cons, hpq]
    cases hpa : p a <;> simp [ih]

theorem map_key_map {α β : Type} (l : List α) (f : α → β) (ka : α → Nat) (kb : β → Nat)
    (h : ∀ a, kb (f a) = ka a) : (l.map f).map kb = l.map ka := by
  induction l with
  | nil => rfl
  | cons a t ih => simp [h, ih]

/-- In a list whose keys are pairwise distinct, filtering for the key of a
member returns exactly that member. -/
theorem filter_key_of_nodup {α : Type} (key : α → Nat) {l : List α}
    (hnd : (l.map key).Nodup) {x : α} (hx : x ∈ l) :
    l.filter (fun a => key a == key x) = [x] := by
  induction l with
  | nil => cases hx
  | cons a t ih =>
    simp only [List.map_cons, List.nodup_cons, List.mem_map] at hnd
    obtain ⟨hka, hnd'⟩ := hnd
    rcases List.mem_cons.mp hx with rfl | hxt
    · simp only [List.filter_cons, beq_self_eq_true, if_pos]
      have htail : t.filter (fun a => key a == key x) = [] := by
        rw [List.filter_eq_nil_iff]
        intro b hb hkb
        exact hka ⟨b, hb, by simpa using hkb⟩
      rw [htail]
    · have hne : (key a == key x) = false := by
        apply beq_eq_false_iff_ne.mpr
        intro he
        exact hka ⟨x, hxt, he.symm⟩
      simp only [List.filter_cons, hne]
      exact ih hnd' hxt

/-- Appending a history row whose `previous_status` is the chain's current
end extends the chain to the row's `new_status`. -/
theorem chainOk_append : ∀ (l : List ApplicationStatusHistory)
    (s : ApplicationStatus) (r : ApplicationStatusHistory),
    chainOk l s = true → r.previous_status = some s →
    chainOk (l ++ [r]) r.new_status = true
  | [], _, r, _, _ => by simp [chainOk]
  | [a], s, r, hl, hprev => by
    simp only [chainOk, beq_iff_eq] at hl
    simp [chainOk, hprev, hl]
  | a :: b :: t, s, r, hl, hprev => by
    simp only [chainOk, Bool.and_eq_true] at hl
    have hrec := chainOk_append (b :: t) s r hl.2 hprev
    simp only [List.cons_append, chainOk, Bool.and_eq_true] at hrec ⊢
    exact ⟨hl.1, hrec⟩

/-- Success characterization of `updateApplicationStatus`: with unique ids and
an existing target, the handler updates the row, appends exactly one history
row and returns the updated row. -/
theorem updateApplicationStatus_found (db : DB) (input : UpdateApplicationStatusInput)
    (uid : Nat) {app : Application}
    (hnd : (db.applications.map (fun a => a.id)).Nodup)
    (hmem : app ∈ db.applications) (hid : app.id = input.application_id) :
    updateApplicationStatus db input uid =
      ({ applications := db.applications.map (fun a =>
            if a.id == input.application_id then
              { a with status := input.new_status, updated_at := db.now } else a),
         history := db.history ++
           [{ application_id := input.application_id,
              previous_status := some app.status,
              new_status := input.new_status,
              changed_by_user_id := uid,
              notes := notesOrNull input.notes,
              created_at := db.now }],
         now := db.now + 1 },
       Except.ok { app with status := input.new_status, updated_at := db.now }) := by
  have hfilter : db.applications.filter (fun a => a.id == input.application_id) = [app] := by
    have h : db.applications.filter (fun a => a.id == app.id) = [app] :=
      filter_key_of_nodup (fun a => a.id) hnd hmem
    rw [hid] at h
    exact h
  have hcomm := filter_map_of_key db.applications
    (fun a => if a.id == input.application_id then
      { a with status := input.new_status, updated_at := db.now } else a)
    (fun a => a.id == input.application_id)
    (fun a => a.id == input.application_id)
    (fun a => by by_cases h : (a.id == input.application_id) = true <;> simp [h])
  have hupd : (db.applications.map (fun a =>
        if a.id == input.application_id then
          { a with status := input.new_status, updated_at := db.now } else a)).filter
        (fun a => a.id == input.application_id) =
      [{ app with status := input.new_status, updated_at := db.now }] := by
    rw [hcomm, hfilter]
    simp [hid]
  simp only [updateApplicationStatus, hfilter, hupd]
  rfl

/-- Members of a list with pairwise-distinct keys are determined by their key. -/
theorem key_inj_of_nodup {α : Type} (key : α → Nat) {l : List α}
    (hnd : (l.map key).Nodup) {x y : α} (hx : x ∈ l) (hy : y ∈ l)
    (hk : key x = key y) : x = y := by
  induction l with
  | nil => cases hx
  | cons a t ih =>
    simp only [List.map_cons, List.nodup_cons, List.mem_map] at hnd
    obtain ⟨hka, hnd'⟩ := hnd
    rcases List.mem_cons.mp hx with rfl | hxt <;> rcases List.mem_cons.mp hy with rfl | hyt
    · rfl
    · exact absurd ⟨y, hyt, hk.symm⟩ hka
    · exact absurd ⟨x, hxt, hk⟩ hka
    · exact ih hnd' hxt hyt

/-- C1 counterexample: with a supplied empty-string notes field the inserted
history row stores null rather than the supplied notes — `notes || null`
discards the empty string, so the row's notes is neither the supplied notes
nor an omitted-notes null. -/
theorem updateApplicationStatus_empty_notes_cex :
    (updateApplicationStatus exDB
        { application_id := 1, new_status := ApplicationStatus.SELECTION,
          notes := some "" } 3).1.history.map (fun h => h.notes) = [none] ∧
      (some "" : Option String) ≠ none := by
  exact ⟨rfl, by simp⟩

/-- C1 (amended): for every existing application, a successful call to
`updateApplicationStatus` sets the application's status to `input.new_status`,
advances its `updated_at`, returns the updated application, and inserts
exactly one history row whose `previous_status` equals the status read before
the write, whose `new_status` equals `input.new_status`, whose
`changed_by_user_id` equals the supplied user id, and whose notes is the
supplied notes when it is a non-empty string and null when it is omitted,
null, or the empty string. -/
theorem updateApplicationStatus_spec (db : DB) (input : UpdateApplicationStatusInput)
    (uid : Nat) (app : Application) (hwf : db.wf)
    (hmem : app ∈ db.applications) (hid : app.id = input.application_id) :
    ∃ db' ret, updateApplicationStatus db input uid = (db', Except.ok ret) ∧
      ret.status = input.new_status ∧
      ret.id = app.id ∧
      app.updated_at < ret.updated_at ∧
      ret ∈ db'.applications ∧
      (∀ a ∈ db'.applications, a.id = app.id → a = ret) ∧
      (∀ a ∈ db.applications, a.id ≠ input.application_id → a ∈ db'.applications) ∧
      db'.history = db.history ++
        [{ application_id := input.application_id,
           previous_status := some app.status,
           new_status := input.new_status,
           changed_by_user_id := uid,
           notes := notesOrNull input.notes,
           created_at := db.now }] := by
  obtain ⟨hnd, htime, -, -⟩ := hwf
  rw [updateApplicationStatus_found db input uid hnd hmem hid]
  refine ⟨_, _, rfl, rfl, rfl, htime app hmem, ?_, ?_, ?_, rfl⟩
  · exact List.mem_map.mpr ⟨app, hmem, by simp [hid]⟩
  · intro a ha hida
    obtain ⟨b, hb, rfl⟩ := List.mem_map.mp ha
    have hbid : b.id = app.id := by
      by_cases h : (b.id == input.application_id) = true <;> simpa [h] using hida
    have : b = app := key_inj_of_nodup (fun a => a.id) hnd hb hmem hbid
    subst this
    simp [hid]
  · intro a ha hne
    exact List.mem_map.mpr ⟨a, ha, by simp [hne]⟩

/-- C1 witness: the amended theorem at the concrete scenario of spec §8. -/
theorem updateApplicationStatus_spec_witness :
    ∃ db' ret, updateApplicationStatus exDB
        { application_id := 1, new_status := ApplicationStatus.DOCUMENT_UPLOAD,
          notes := some "docs ready" } 3 = (db', Except.ok ret) ∧
      ret.status = ApplicationStatus.DOCUMENT_UPLOAD ∧
      ret.id = exApp1.id ∧
      exApp1.updated_at < ret.updated_at ∧
      ret ∈ db'.applications ∧
      (∀ a ∈ db'.applications, a.id = exApp1.id → a = ret) ∧
      (∀ a ∈ exDB.applications, a.id ≠ 1 → a ∈ db'.applications) ∧
      db'.history = exDB.history ++
        [{ application_id := 1,
           previous_status := some exApp1.status,
           new_status := ApplicationStatus.DOCUMENT_UPLOAD,
           changed_by_user_id := 3,
           notes := notesOrNull (some "docs ready"),
           created_at := exDB.now }] :=
  updateApplicationStatus_spec exDB
    { application_id := 1, new_status := ApplicationStatus.DOCUMENT_UPLOAD,
      notes := some "docs ready" } 3 exApp1
    (by constructor
        · decide
        · exact ⟨by decide, by decide, by decide⟩)
    (by simp [exDB]) (by decide)

/-- C6: for an applicationId referencing no existing application,
`updateApplicationStatus` fails with the message naming that id and returns
the database unchanged: no application row is updated and no history row is
inserted anywhere. -/
theorem updateApplicationStatus_not_found (db : DB) (input : UpdateApplicationStatusInput)
    (uid : Nat) (hmissing : ∀ a ∈ db.applications, a.id ≠ input.application_id) :
    updateApplicationStatus db input uid =
      (db, Except.error (HandlerError.err
        ("Application with ID " ++ toString input.application_id ++ " not found"))) := by
  have hfilter : db.applications.filter (fun a => a.id == input.application_id) = [] := by
    rw [List.filter_eq_nil_iff]
    intro a ha
    simpa using hmissing a ha
  simp only [updateApplicationStatus, hfilter]

/-- C6 witness: id 99999 (spec §8 scenario 2) does not exist in the fixture
database; the call errors with the message naming 99999 and changes nothing. -/
theorem updateApplicationStatus_not_found_witness :
    updateApplicationStatus exDB
        { application_id := 99999, new_status := ApplicationStatus.SELECTION,
          notes := none } 3 =
      (exDB, Except.error (HandlerError.err
        ("Application with ID " ++ toString 99999 ++ " not found"))) :=
  updateApplicationStatus_not_found exDB
    { application_id := 99999, new_status := ApplicationStatus.SELECTION,
      notes := none } 3 (by decide)

/-- With no fault injected, the fault model coincides with the plain embedding
of `updateApplicationStatus`. -/
theorem updateApplicationStatusFault_fault_free (db : DB)
    (input : UpdateApplicationStatusInput) (uid : Nat) :
    updateApplicationStatusFault db input uid DbFault.fault_free =
      updateApplicationStatus db input uid := by
  unfold updateApplicationStatus updateApplicationStatusFault
  cases db.applications.filter (fun a => a.id == input.application_id) <;> rfl

/-- C2 (code-bug evidence): `submitApplication` on application 1 succeeds and
changes its status from INITIAL_REGISTRATION to DOCUMENT_UPLOAD, yet the
history table is left exactly as it was — the status change is recorded by no
ApplicationStatusHistory row. -/
theorem submitApplication_no_history_row :
    ∃ db' r, submitApplication exDB 1 = (db', Except.ok r) ∧
      exApp1.status = ApplicationStatus.INITIAL_REGISTRATION ∧
      r.id = 1 ∧
      r.status = ApplicationStatus.DOCUMENT_UPLOAD ∧
      r ∈ db'.applications ∧
      db'.history = exDB.history ∧
      (historyFor db' 1).length = (historyFor exDB 1).length := by
  refine ⟨_, _, rfl, rfl, rfl, rfl, ?_, rfl, rfl⟩
  simp [submitApplication, exDB, exApp1, exApp2]

/-- C3 (code-bug evidence): if the history insert fails after the status
update executed, `updateApplicationStatus` leaves the application's status
and `updated_at` changed while no history row was written — there is no
transaction, so the two writes do not fail together. -/
theorem updateApplicationStatus_partial_write :
    ∃ db', updateApplicationStatusFault exDB
        { application_id := 1, new_status := ApplicationStatus.SELECTION,
          notes := none } 3 DbFault.onInsert =
        (db', Except.error (HandlerError.err "insert failed")) ∧
      db'.applications.map (fun a => (a.id, a.status, a.updated_at)) =
        [(1, ApplicationStatus.SELECTION, 200), (2, ApplicationStatus.DOCUMENT_UPLOAD, 101)] ∧
      exApp1.status = ApplicationStatus.INITIAL_REGISTRATION ∧
      exApp1.updated_at = 100 ∧
      db'.history = exDB.history :=
  ⟨_, rfl, rfl, rfl, rfl, rfl⟩

/-- C7 counterexample: a call whose newStatus is not an enum member but whose
id list is empty does not fail — the empty-list early return precedes the
zod validation, so the call succeeds with an empty result. -/
theorem bulkUpdate_empty_skips_validation_cex :
    bulkUpdateApplicationStatus exDB [] "BOGUS" 3 none = (exDB, Except.ok []) ∧
      applicationStatusParse "BOGUS" = none := by
  exact ⟨rfl, by decide⟩

/-- C7 (amended): for every call with a non-empty id list whose newStatus
string is not one of the five enum members, `bulkUpdateApplicationStatus`
fails with a ValidationError before any storage write and returns the
database unchanged; a call with an empty id list returns an empty result
without validating the status. -/
theorem bulkUpdate_invalid_status (db : DB) (ids : List Nat) (s : String)
    (uid : Nat) (notes : Option String) (hne : ids ≠ [])
    (hparse : applicationStatusParse s = none) :
    bulkUpdateApplicationStatus db ids s uid notes =
      (db, Except.error (HandlerError.validation s)) := by
  unfold bulkUpdateApplicationStatus
  rw [if_neg (by simpa using hne), hparse]

/-- C7 witness: the amended theorem at a concrete non-empty call with an
invalid status string. -/
theorem bulkUpdate_invalid_status_witness :
    bulkUpdateApplicationStatus exDB [1] "BOGUS" 3 none =
      (exDB, Except.error (HandlerError.validation "BOGUS")) :=
  bulkUpdate_invalid_status exDB [1] "BOGUS" 3 none (by decide) (by decide)

/-- C10: a list holding the same valid id twice fails the count check — the
two entries both resolve to application 1, so one row is found against two
requested — and the call mutates nothing although every id in the list
references an existing application. -/
theorem bulkUpdate_duplicate_ids_cex :
    bulkUpdateApplicationStatus exDB [1, 1] "SELECTION" 3 none =
      (exDB, Except.error (HandlerError.err
        "Some applications were not found. Expected 2, found 1")) ∧
      (∀ i ∈ [1, 1], ∃ a ∈ exDB.applications, a.id = i) := by
  exact ⟨rfl, by decide⟩

/-- If some id in the list matches no application, the rows found by the
`inArray` select number strictly fewer than the ids requested. -/
theorem found_lt_requested (db : DB) (ids : List Nat) (x : Nat)
    (hnd : (db.applications.map (fun a => a.id)).Nodup)
    (hx : x ∈ ids) (hmissing : ∀ a ∈ db.applications, a.id ≠ x) :
    (db.applications.filter (fun a => ids.contains a.id)).length < ids.length := by
  set fl := db.applications.filter (fun a => ids.contains a.id) with hfl
  have hkeysnd : (fl.map (fun a => a.id)).Nodup :=
    ((List.filter_sublist db.applications).map (fun a => a.id)).nodup hnd
  have hsub : (fl.map (fun a => a.id)) ⊆ ids.erase x := by
    intro k hk
    obtain ⟨a, ha, rfl⟩ := List.mem_map.mp hk
    obtain ⟨hamem, hcont⟩ := List.mem_filter.mp ha
    have hkin : a.id ∈ ids := by simpa using hcont
    exact (List.mem_erase_of_ne (hmissing a hamem)).mpr hkin
  have hle : (fl.map (fun a => a.id)).length ≤ (ids.erase x).length :=
    (hkeysnd.subperm hsub).length_le
  have herase : (ids.erase x).length = ids.length - 1 := List.length_erase_of_mem hx
  have hpos : 0 < ids.length := List.length_pos.mpr (List.ne_nil_of_mem hx)
  rw [List.length_map] at hle
  omega

/-- C4: for every non-empty id list containing at least one id that matches
no application (the status string being a valid enum member), the bulk call
fails with the expected-versus-found message and returns the database
unchanged: no application row and no history row is touched. -/
theorem bulkUpdate_missing_id (db : DB) (ids : List Nat) (s : String)
    (st : ApplicationStatus) (uid : Nat) (notes : Option String) (x : Nat)
    (hnd : (db.applications.map (fun a => a.id)).Nodup)
    (hx : x ∈ ids) (hmissing : ∀ a ∈ db.applications, a.id ≠ x)
    (hparse : applicationStatusParse s = some st) :
    bulkUpdateApplicationStatus db ids s uid notes =
      (db, Except.error (HandlerError.err
        ("Some applications were not found. Expected " ++ toString ids.length ++
          ", found " ++
          toString (db.applications.filter (fun a => ids.contains a.id)).length))) := by
  have hlt := found_lt_requested db ids x hnd hx hmissing
  have hpos : 0 < ids.length := List.length_pos.mpr (List.ne_nil_of_mem hx)
  unfold bulkUpdateApplicationStatus
  rw [if_neg (by omega), hparse]
  simp only [ne_eq]
  rw [if_pos (by omega)]

/-- C4 witness: ids [1, 99999] over the fixture database (scenario 4 of
spec §8): 99999 matches nothing, the call fails with "Expected 2, found 1"
and the database comes back unchanged. -/
theorem bulkUpdate_missing_id_witness :
    bulkUpdateApplicationStatus exDB [1, 99999] "SELECTION" 3 none =
      (exDB, Except.error (HandlerError.err
        ("Some applications were not found. Expected " ++ toString 2 ++
          ", found " ++
          toString (exDB.applications.filter
            (fun a => [1, 99999].contains a.id)).length))) :=
  bulkUpdate_missing_id exDB [1, 99999] "SELECTION" ApplicationStatus.SELECTION 3 none
    99999 (by decide) (by decide) (by decide) (by decide)

/-- C9: for every applicationId, `getApplicationStatusHistory` never errors
and returns exactly the history rows of that application — a permutation of
the table's matching rows, each belonging to the requested application —
in `created_at` ascending order; in particular an id with no rows (including
an id referencing no application) yields the empty list. -/
theorem getApplicationStatusHistory_spec (db : DB) (applicationId : Nat) :
    ∃ l, getApplicationStatusHistory db applicationId = (db, Except.ok l) ∧
      l.Perm (db.history.filter (fun h => h.application_id == applicationId)) ∧
      (∀ h ∈ l, h.application_id = applicationId) ∧
      l.Pairwise (fun h1 h2 => h1.created_at ≤ h2.created_at) := by
  refine ⟨_, rfl, List.mergeSort_perm _ _, ?_, ?_⟩
  · intro h hh
    have hmem := (List.mergeSort_perm
      (db.history.filter (fun h => h.application_id == applicationId)) _).mem_iff.mp hh
    have := (List.mem_filter.mp hmem).2
    simpa using this
  · have hs := @List.sorted_mergeSort ApplicationStatusHistory
      (fun h1 h2 => decide (h1.created_at ≤ h2.created_at))
      (fun a b c hab hbc => by
        simp only [decide_eq_true_eq] at hab hbc ⊢
        omega)
      (fun a b => by
        simp only [Bool.or_eq_true, decide_eq_true_eq]
        omega)
      (db.history.filter (fun h => h.application_id == applicationId))
    exact hs.imp (fun h => by simpa using h)

/-- Success characterization of `bulkUpdateApplicationStatus`: with a
non-empty list, a valid status string and a passing count check, the handler
updates every targeted row and appends one history row per found application,
each carrying that application's own pre-write status. -/
theorem bulkUpdateApplicationStatus_success (db : DB) (ids : List Nat) (s : String)
    (st : ApplicationStatus) (uid : Nat) (notes : Option String)
    (hne : ids.length ≠ 0) (hparse : applicationStatusParse s = some st)
    (hcount : (db.applications.filter (fun a => ids.contains a.id)).length = ids.length) :
    bulkUpdateApplicationStatus db ids s uid notes =
      ({ applications := db.applications.map (fun a =>
            if ids.contains a.id then { a with status := st, updated_at := db.now }
            else a),
         history := db.history ++
           (db.applications.filter (fun a => ids.contains a.id)).map
             (fun app =>
               ({ application_id := app.id
                  previous_status := some app.status
                  new_status := st
                  changed_by_user_id := uid
                  notes := notesOrNull notes
                  created_at := db.now } : ApplicationStatusHistory)),
         now := db.now + 1 },
       Except.ok ((db.applications.map (fun a =>
            if ids.contains a.id then { a with status := st, updated_at := db.now }
            else a)).filter (fun a => ids.contains a.id))) := by
  unfold bulkUpdateApplicationStatus
  rw [if_neg hne, hparse]
  simp only [hcount, ne_eq, not_true_eq_false, Bool.false_eq_true, if_false]

/-- C8 counterexample: in a successful bulk call with a supplied empty-string
notes, every inserted history row stores null rather than the supplied
notes — `notes || null` discards the empty string. -/
theorem bulkUpdate_empty_notes_cex :
    (bulkUpdateApplicationStatus exDB [1, 2] "SELECTION" 3 (some "")).1.history.map
        (fun h => h.notes) = [none, none] ∧
      (∃ out, (bulkUpdateApplicationStatus exDB [1, 2] "SELECTION" 3 (some "")).2
        = Except.ok out) ∧
      (some "" : Option String) ≠ none := by
  refine ⟨rfl, ⟨_, rfl⟩, by simp⟩

/-- C8 (amended): for every successful bulkUpdateApplicationStatus call, the
inserted history rows are exactly one per targeted application, each carrying
that application's own status captured before any write as its
`previous_status`, while every row in the batch carries the identical
`new_status`, `changed_by_user_id`, and notes value — the supplied notes when
it is a non-empty string and null when it is omitted, null, or empty. -/
theorem bulkUpdate_success_history (db : DB) (ids : List Nat) (s : String)
    (uid : Nat) (notes : Option String) (db' : DB) (out : List Application)
    (hwf : db.wf) (hne : ids ≠ [])
    (hrun : bulkUpdateApplicationStatus db ids s uid notes = (db', Except.ok out)) :
    ∃ st newRows, applicationStatusParse s = some st ∧
      db'.history = db.history ++ newRows ∧
      (∀ r ∈ newRows, r.new_status = st ∧ r.changed_by_user_id = uid ∧
        r.notes = notesOrNull notes) ∧
      (∀ a ∈ db.applications, a.id ∈ ids →
        newRows.filter (fun r => r.application_id == a.id) =
          [{ application_id := a.id
             previous_status := some a.status
             new_status := st
             changed_by_user_id := uid
             notes := notesOrNull notes
             created_at := db.now }]) := by
  have hlen : ids.length ≠ 0 := by simpa using hne
  cases hp : applicationStatusParse s with
  | none =>
    rw [bulkUpdate_invalid_status db ids s uid notes hne hp] at hrun
    simp at hrun
  | some st =>
    by_cases hcount :
        (db.applications.filter (fun a => ids.contains a.id)).length = ids.length
    · rw [bulkUpdateApplicationStatus_success db ids s st uid notes hlen hp hcount] at hrun
      have hdb' := congrArg Prod.fst hrun
      simp only at hdb'
      subst hdb'
      refine ⟨st, _, rfl, rfl, ?_, ?_⟩
      · intro r hr
        obtain ⟨a, -, rfl⟩ := List.mem_map.mp hr
        exact ⟨rfl, rfl, rfl⟩
      · intro a ha hain
        have hcomm := filter_map_of_key
          (db.applications.filter (fun b => ids.contains b.id))
          (fun app =>
            ({ application_id := app.id
               previous_status := some app.status
               new_status := st
               changed_by_user_id := uid
               notes := notesOrNull notes
               created_at := db.now } : ApplicationStatusHistory))
          (fun b => b.id == a.id)
          (fun r => r.application_id == a.id)
          (fun b => rfl)
        rw [hcomm]
        have hflnd : ((db.applications.filter (fun b => ids.contains b.id)).map
            (fun b => b.id)).Nodup :=
          ((List.filter_sublist db.applications).map (fun b => b.id)).nodup hwf.1
        have hafl : a ∈ db.applications.filter (fun b => ids.contains b.id) :=
          List.mem_filter.mpr ⟨ha, by simpa using hain⟩
        have hone : (db.applications.filter (fun b => ids.contains b.id)).filter
            (fun b => b.id == a.id) = [a] :=
          filter_key_of_nodup (fun b => b.id) hflnd hafl
        rw [hone]
        rfl
    · have hfail : bulkUpdateApplicationStatus db ids s uid notes =
          (db, Except.error (HandlerError.err
            ("Some applications were not found. Expected " ++ toString ids.length ++
              ", found " ++
              toString (db.applications.filter (fun a => ids.contains a.id)).length))) := by
        unfold bulkUpdateApplicationStatus
        rw [if_neg hlen, hp]
        simp only [ne_eq, hcount, not_false_eq_true, if_true]
      rw [hfail] at hrun
      simp at hrun

/-- C8 witness: the amended theorem at the concrete batch [1, 2] over the
fixture database, whose two applications hold different current statuses. -/
theorem bulkUpdate_success_history_witness :
    ∃ st newRows, applicationStatusParse "SELECTION" = some st ∧
      (bulkUpdateApplicationStatus exDB [1, 2] "SELECTION" 3 (some "batch move")).1.history =
        exDB.history ++ newRows ∧
      (∀ r ∈ newRows, r.new_status = st ∧ r.changed_by_user_id = 3 ∧
        r.notes = notesOrNull (some "batch move")) ∧
      (∀ a ∈ exDB.applications, a.id ∈ [1, 2] →
        newRows.filter (fun r => r.application_id == a.id) =
          [{ application_id := a.id
             previous_status := some a.status
             new_status := st
             changed_by_user_id := 3
             notes := notesOrNull (some "batch move")
             created_at := exDB.now }]) :=
  bulkUpdate_success_history exDB [1, 2] "SELECTION" 3 (some "batch move")
    (bulkUpdateApplicationStatus exDB [1, 2] "SELECTION" 3 (some "batch move")).1
    ((bulkUpdateApplicationStatus exDB [1, 2] "SELECTION" 3 (some "batch move")).2.toOption.getD [])
    (by refine ⟨by decide, ?_, ?_, ?_⟩ <;> decide)
    (by decide) rfl

/-- Failure characterization of the bulk count check. -/
theorem bulkUpdateApplicationStatus_mismatch (db : DB) (ids : List Nat) (s : String)
    (st : ApplicationStatus) (uid : Nat) (notes : Option String)
    (hlen : ids.length ≠ 0) (hp : applicationStatusParse s = some st)
    (hcount : (db.applications.filter (fun a => ids.contains a.id)).length ≠ ids.length) :
    bulkUpdateApplicationStatus db ids s uid notes =
      (db, Except.error (HandlerError.err
        ("Some applications were not found. Expected " ++ toString ids.length ++
          ", found " ++
          toString (db.applications.filter (fun a => ids.contains a.id)).length))) := by
  unfold bulkUpdateApplicationStatus
  rw [if_neg hlen, hp]
  simp only [ne_eq, hcount, not_false_eq_true, if_true]

/-- One step of `updateApplicationStatus` preserves well-formedness and the
replay-chain invariant. -/
theorem updateApplicationStatus_preserves (db : DB)
    (input : UpdateApplicationStatusInput) (uid : Nat)
    (hwf : db.wf) (hci : chainInv db) :
    (updateApplicationStatus db input uid).1.wf ∧
      chainInv (updateApplicationStatus db input uid).1 := by
  by_cases hex : ∃ app ∈ db.applications, app.id = input.application_id
  · obtain ⟨app, hmem, hid⟩ := hex
    obtain ⟨hnd, happt, hhistt, hsort⟩ := hwf
    rw [updateApplicationStatus_found db input uid hnd hmem hid]
    constructor
    · refine ⟨?_, ?_, ?_, ?_⟩
      · have hkm : (db.applications.map (fun a =>
            if a.id == input.application_id then
              { a with status := input.new_status, updated_at := db.now }
            else a)).map (fun a => a.id) = db.applications.map (fun a => a.id) :=
          map_key_map db.applications
            (fun a => if a.id == input.application_id then
              { a with status := input.new_status, updated_at := db.now } else a)
            (fun a => a.id) (fun a => a.id)
            (fun a => by by_cases h : (a.id == input.application_id) = true <;> simp [h])
        rw [hkm]
        exact hnd
      · intro a' ha'
        obtain ⟨b, hb, rfl⟩ := List.mem_map.mp ha'
        by_cases h : (b.id == input.application_id) = true
        · simp only [h, if_true]
          exact Nat.lt_succ_self _
        · simp only [h, Bool.false_eq_true, if_false]
          exact Nat.lt_succ_of_lt (happt b hb)
      · intro h hh
        rcases List.mem_append.mp hh with h1 | h1
        · exact Nat.lt_succ_of_lt (hhistt h h1)
        · simp only [List.mem_singleton] at h1
          subst h1
          exact Nat.lt_succ_self _
      · rw [List.pairwise_append]
        refine ⟨hsort, by simp, ?_⟩
        intro h1 hh1 h2 hh2
        simp only [List.mem_singleton] at hh2
        subst hh2
        exact Nat.le_of_lt (hhistt h1 hh1)
    · intro a' ha'
      obtain ⟨b, hb, rfl⟩ := List.mem_map.mp ha'
      by_cases h : (b.id == input.application_id) = true
      · have hbid : b.id = input.application_id := by simpa using h
        have hba : b = app :=
          key_inj_of_nodup (fun a => a.id) hnd hb hmem (hbid.trans hid.symm)
        subst hba
        have hc := hci b hb
        unfold historyFor at hc ⊢
        rw [hbid] at hc
        simp only [h, if_true, List.filter_append, List.filter_cons, List.filter_nil,
          hbid, beq_self_eq_true, if_true]
        exact chainOk_append _ b.status _ hc rfl
      · have hbne : (input.application_id == b.id) = false := by
          simp only [beq_eq_false_iff_ne]
          intro he
          exact h (by simp [he.symm])
        unfold historyFor
        simp only [h, Bool.false_eq_true, if_false, List.filter_append, List.filter_cons,
          List.filter_nil, hbne, List.append_nil]
        exact hci b hb
  · push_neg at hex
    rw [updateApplicationStatus_not_found db input uid hex]
    exact ⟨hwf, hci⟩

/-- One bulk step preserves well-formedness and the replay-chain invariant. -/
theorem bulkUpdate_preserves (db : DB) (ids : List Nat) (s : String) (uid : Nat)
    (notes : Option String) (hwf : db.wf) (hci : chainInv db) :
    (bulkUpdateApplicationStatus db ids s uid notes).1.wf ∧
      chainInv (bulkUpdateApplicationStatus db ids s uid notes).1 := by
  by_cases hlen : ids.length = 0
  · unfold bulkUpdateApplicationStatus
    rw [if_pos hlen]
    exact ⟨hwf, hci⟩
  cases hp : applicationStatusParse s with
  | none =>
    rw [bulkUpdate_invalid_status db ids s uid notes
      (fun he => hlen (by simp [he])) hp]
    exact ⟨hwf, hci⟩
  | some st =>
    by_cases hcount :
        (db.applications.filter (fun a => ids.contains a.id)).length = ids.length
    · rw [bulkUpdateApplicationStatus_success db ids s st uid notes hlen hp hcount]
      obtain ⟨hnd, happt, hhistt, hsort⟩ := hwf
      constructor
      · refine ⟨?_, ?_, ?_, ?_⟩
        · have hkm := map_key_map db.applications
            (fun a => if ids.contains a.id then
              { a with status := st, updated_at := db.now } else a)
            (fun a => a.id) (fun a => a.id)
            (fun a => by
              show (if ids.contains a.id = true then
                { a with status := st, updated_at := db.now } else a).id = a.id
              by_cases hh : ids.contains a.id = true
              · rw [if_pos hh]
              · rw [if_neg hh])
          rw [hkm]
          exact hnd
        · intro a' ha'
          obtain ⟨b, hb, rfl⟩ := List.mem_map.mp ha'
          by_cases hh : ids.contains b.id = true
          · simp only [hh, if_true]
            exact Nat.lt_succ_self _
          · simp only [hh, Bool.false_eq_true, if_false]
            exact Nat.lt_succ_of_lt (happt b hb)
        · intro h hhmem
          rcases List.mem_append.mp hhmem with h1 | h1
          · exact Nat.lt_succ_of_lt (hhistt h h1)
          · obtain ⟨c, hc, rfl⟩ := List.mem_map.mp h1
            exact Nat.lt_succ_self _
        · rw [List.pairwise_append]
          refine ⟨hsort, ?_, ?_⟩
          · rw [List.pairwise_map]
            exact List.pairwise_of_forall (fun c d => le_refl _)
          · intro h1 hh1 h2 hh2
            obtain ⟨c, hc, rfl⟩ := List.mem_map.mp hh2
            exact Nat.le_of_lt (hhistt h1 hh1)
      · intro a' ha'
        obtain ⟨b, hb, rfl⟩ := List.mem_map.mp ha'
        by_cases hh : ids.contains b.id = true
        · have hflnd : ((db.applications.filter (fun c => ids.contains c.id)).map
              (fun c => c.id)).Nodup :=
            ((List.filter_sublist db.applications).map (fun c => c.id)).nodup hnd
          have hbfl : b ∈ db.applications.filter (fun c => ids.contains c.id) :=
            List.mem_filter.mpr ⟨hb, hh⟩
          have hone : (db.applications.filter (fun c => ids.contains c.id)).filter
              (fun c => c.id == b.id) = [b] :=
            filter_key_of_nodup (fun c => c.id) hflnd hbfl
          have hcomm := filter_map_of_key
            (db.applications.filter (fun c => ids.contains c.id))
            (fun app =>
              ({ application_id := app.id
                 previous_status := some app.status
                 new_status := st
                 changed_by_user_id := uid
                 notes := notesOrNull notes
                 created_at := db.now } : ApplicationStatusHistory))
            (fun c => c.id == b.id)
            (fun r => r.application_id == b.id)
            (fun c => rfl)
          have hc := hci b hb
          unfold historyFor at hc ⊢
          simp only [hh, if_true, List.filter_append]
          rw [hcomm, hone]
          simp only [List.map_cons, List.map_nil]
          exact chainOk_append _ b.status _ hc rfl
        · have hnone : ((db.applications.filter (fun c => ids.contains c.id)).map
              (fun app =>
                ({ application_id := app.id
                   previous_status := some app.status
                   new_status := st
                   changed_by_user_id := uid
                   notes := notesOrNull notes
                   created_at := db.now } : ApplicationStatusHistory))).filter
              (fun r => r.application_id == b.id) = [] := by
            rw [List.filter_eq_nil_iff]
            intro r hr
            obtain ⟨c, hcmem, rfl⟩ := List.mem_map.mp hr
            obtain ⟨hcapp, hccont⟩ := List.mem_filter.mp hcmem
            intro hcb
            have hcid : c.id = b.id := by simpa using hcb
            have : c = b := key_inj_of_nodup (fun x => x.id) hnd hcapp hb hcid
            subst this
            exact hh hccont
          have hc := hci b hb
          unfold historyFor at hc ⊢
          simp only [hh, Bool.false_eq_true, if_false, List.filter_append]
          rw [hnone, List.append_nil]
          exact hc
    · rw [bulkUpdateApplicationStatus_mismatch db ids s st uid notes hlen hp hcount]
      exact ⟨hwf, hci⟩

/-- A transition operation preserves well-formedness and the replay chain. -/
theorem TransitionOp_apply_preserves (db : DB) (op : TransitionOp)
    (hwf : db.wf) (hci : chainInv db) :
    (op.apply db).wf ∧ chainInv (op.apply db) := by
  cases op with
  | single input uid => exact updateApplicationStatus_preserves db input uid hwf hci
  | bulk ids s uid notes => exact bulkUpdate_preserves db ids s uid notes hwf hci

/-- A sequence of transition operations preserves well-formedness and the
replay chain. -/
theorem runTransitions_preserves (ops : List TransitionOp) (db : DB)
    (hwf : db.wf) (hci : chainInv db) :
    (runTransitions db ops).wf ∧ chainInv (runTransitions db ops) := by
  induction ops generalizing db with
  | nil => exact ⟨hwf, hci⟩
  | cons op rest ih =>
    have h1 := TransitionOp_apply_preserves db op hwf hci
    exact ih (op.apply db) h1.1 h1.2

/-- C5: for every application and every sequence of single or bulk
transitions applied to a well-formed, chain-consistent state (in particular
to a freshly created application with zero history rows), the rows returned
by `getApplicationStatusHistory` — the application's history ordered by
`created_at` ascending — form a chain: each row's `new_status` equals the
next row's `previous_status`, and the last row's `new_status` equals the
application's current status. -/
theorem transitions_replay_chain (db : DB) (ops : List TransitionOp)
    (hwf : db.wf) (hci : chainInv db) (a : Application)
    (hmem : a ∈ (runTransitions db ops).applications) :
    ∃ l, getApplicationStatusHistory (runTransitions db ops) a.id =
        (runTransitions db ops, Except.ok l) ∧
      l = historyFor (runTransitions db ops) a.id ∧
      chainOk l a.status = true := by
  obtain ⟨hwf', hci'⟩ := runTransitions_preserves ops db hwf hci
  have hsorted : ((runTransitions db ops).history.filter
      (fun h => h.application_id == a.id)).Pairwise
      (fun h1 h2 => (decide (h1.created_at ≤ h2.created_at)) = true) := by
    have hs := List.Pairwise.sublist
      (@List.filter_sublist _ (fun h => h.application_id == a.id)
        (runTransitions db ops).history) hwf'.2.2.2
    exact hs.imp (fun hab => by simpa using hab)
  have hms : ((runTransitions db ops).history.filter
      (fun h => h.application_id == a.id)).mergeSort
      (fun h1 h2 => h1.created_at ≤ h2.created_at) =
      (runTransitions db ops).history.filter (fun h => h.application_id == a.id) :=
    List.mergeSort_of_sorted hsorted
  refine ⟨_, rfl, ?_, ?_⟩
  · rw [hms]
    rfl
  · rw [hms]
    exact hci' a hmem

/-- C5 witness: the chain theorem on the fixture database after a single
transition of application 1 followed by a bulk transition of both
applications; the final row of application 1 links DOCUMENT_UPLOAD to
SELECTION, the current status. -/
theorem transitions_replay_chain_witness :
    ∃ l, getApplicationStatusHistory (runTransitions exDB
        [TransitionOp.single
          { application_id := 1
            new_status := ApplicationStatus.DOCUMENT_UPLOAD
            notes := some "docs ready" } 3,
         TransitionOp.bulk [1, 2] "SELECTION" 3 none]) 1 =
      (runTransitions exDB
        [TransitionOp.single
          { application_id := 1
            new_status := ApplicationStatus.DOCUMENT_UPLOAD
            notes := some "docs ready" } 3,
         TransitionOp.bulk [1, 2] "SELECTION" 3 none], Except.ok l) ∧
      l = historyFor (runTransitions exDB
        [TransitionOp.single
          { application_id := 1
            new_status := ApplicationStatus.DOCUMENT_UPLOAD
            notes := some "docs ready" } 3,
         TransitionOp.bulk [1, 2] "SELECTION" 3 none]) 1 ∧
      chainOk l ApplicationStatus.SELECTION = true :=
  transitions_replay_chain exDB
    [TransitionOp.single
      { application_id := 1
        new_status := ApplicationStatus.DOCUMENT_UPLOAD
        notes := some "docs ready" } 3,
     TransitionOp.bulk [1, 2] "SELECTION" 3 none]
    (by refine ⟨by decide, ?_, ?_, ?_⟩ <;> decide)
    (by decide)
    { id := 1
      applicant_id := 10
      application_number := "APP-10-100"
      status := ApplicationStatus.SELECTION
      submitted_at := none
      created_at := 100
      updated_at := 201 }
    (by decide)
